import Mathlib

/-!
# Context Distillery — verification of the specification against the code

Shallow embedding of the context-distillation engine and its React console.
The console (`frontend/src/components/EngineConsole.jsx`) is embedded from
the source; the backend engine (orchestrator, memory store, compression,
retrieval, metrics) is not part of the repository sources available here,
so those operations are modelled from the specification, as marked on each
definition.
-/

namespace ContextDistillery

/-! ## Console: metric badge (EngineConsole.jsx lines 18–22)

`function metricBadgeVariant(value) { if (value >= 50) return "default";
if (value >= 25) return "secondary"; return "outline"; }`
JS numbers are modelled as rationals. -/

def metricBadgeVariant (value : ℚ) : String :=
  if 50 ≤ value then "default"
  else if 25 ≤ value then "secondary"
  else "outline"

/-! ## Console: create-run and demo configuration payloads

`createRun` (EngineConsole.jsx lines 68–95) posts a `config` object with
keys `use_llm`, `stm_max_messages`, `compression_token_threshold`,
`compression_interval_steps`, `llm_provider`, `llm_model`; `runDemo`
(lines 135–162) posts the same keys with different numbers. A JSON
config object is modelled as an association list of keyed values. -/

inductive ConfigValue
  | boolVal (b : Bool)
  | natVal (n : Nat)
  | strVal (s : String)
deriving DecidableEq, Repr

/-- The config object the console's `createRun` sends (EngineConsole.jsx 74–81). -/
def createRunConfig (useLlm : Bool) : List (String × ConfigValue) :=
  [("use_llm", ConfigValue.boolVal useLlm),
   ("stm_max_messages", ConfigValue.natVal 12),
   ("compression_token_threshold", ConfigValue.natVal 2400),
   ("compression_interval_steps", ConfigValue.natVal 3),
   ("llm_provider", ConfigValue.strVal "openai"),
   ("llm_model", ConfigValue.strVal "gpt-5.2")]

/-- The config object the console's `runDemo` sends (EngineConsole.jsx 141–148). -/
def runDemoConfig (useLlm : Bool) : List (String × ConfigValue) :=
  [("use_llm", ConfigValue.boolVal useLlm),
   ("stm_max_messages", ConfigValue.natVal 12),
   ("compression_token_threshold", ConfigValue.natVal 1800),
   ("compression_interval_steps", ConfigValue.natVal 2),
   ("llm_provider", ConfigValue.strVal "openai"),
   ("llm_model", ConfigValue.strVal "gpt-5.2")]

/-! ## Console: memory viewer field access

`refresh` (EngineConsole.jsx 48–56) stores the raw get-memory response;
the viewer renders `memory?.stm || []` (line 508), `memory?.cwm || {}`
(line 519) and `metrics = memory?.metrics || {}` (line 46). Response
fields are modelled as an association list from field name to the
rendered JSON text of that field. -/

def jsField (fields : List (String × String)) (k : String) : Option String :=
  fields.lookup k

/-- STM tab: `JSON.stringify(memory?.stm || [], null, 2)` (EngineConsole.jsx 508). -/
def stmPane (fields : List (String × String)) : String :=
  (jsField fields "stm").getD "[]"

/-- CWM tab: `JSON.stringify(memory?.cwm || \x7b\x7d, null, 2)` (EngineConsole.jsx 519). -/
def cwmPane (fields : List (String × String)) : String :=
  (jsField fields "cwm").getD "\x7b\x7d"

/-- Metrics: `memory?.metrics || \x7b\x7d` (EngineConsole.jsx 46). -/
def metricsPane (fields : List (String × String)) : String :=
  (jsField fields "metrics").getD "\x7b\x7d"

/-! ## Console: sendStep guard (EngineConsole.jsx 97–119)

`if (!userMessage.trim()) return;` — no HTTP request is made when the
trimmed message is empty; otherwise the original (untrimmed) message is
posted as `\x7b user_message: userMessage \x7d`. -/

structure StepRequest where
  user_message : String
deriving DecidableEq, Repr

/-- JS `String.prototype.trim`: strip leading and trailing whitespace. -/
def jsTrim (s : String) : String :=
  String.mk (((s.data.dropWhile Char.isWhitespace).reverse.dropWhile
    Char.isWhitespace).reverse)

/-- The HTTP request `sendStep` issues, if any: JS `!userMessage.trim()`
is true exactly on the empty trimmed string. -/
def sendStepRequest (userMessage : String) : Option StepRequest :=
  if jsTrim userMessage == "" then none
  else some { user_message := userMessage }

/-- Console event-card header mapping (EngineConsole.jsx 164–177). -/
def eventCardHeader (t : String) : String :=
  if t == "planner" then "Planner"
  else if t == "critic" then "Critic"
  else if t == "retrieval" then "Retrieval"
  else if t == "compression" then "Compression"
  else if t == "snapshot" then "Snapshot"
  else t

/-! ## Engine data model

Modelled from the spec: the backend engine sources
(`backend/engine/orchestrator.py`, `compression_agent.py`,
`retrieval_agent.py`, `server.py`) are not among the available sources;
the data model follows spec §3 and the operations follow spec §4, §6, §7.
All states below are per-run (a run exclusively owns its messages, facts,
snapshots and events), so the `(run_id, key)` invariant becomes a
per-`key` invariant on one run's fact list. -/

/-- Modelled from the spec: pure, deterministic text → token-count
approximation (spec §2, §4.5); the ≈ chars/4 heuristic. -/
def estimateTokens (s : String) : Nat := s.length / 4

inductive Role
  | user
  | assistant
deriving DecidableEq, Repr

/-- Modelled from the spec: an STM entry (spec §3 Message). -/
structure Message where
  stepIndex : Nat
  role : Role
  content : String
  tokenEstimate : Nat
deriving DecidableEq, Repr

inductive FactStatus
  | active
  | superseded
  | deprecated
deriving DecidableEq, Repr

/-- Modelled from the spec: a CWM entry (spec §3 Fact). -/
structure Fact where
  id : Nat
  version : Nat
  key : String
  value : String
  status : FactStatus
  supersedes : Option Nat
deriving DecidableEq, Repr

inductive EventType
  | retrieval
  | planner
  | critic
  | compression
  | snapshot
deriving DecidableEq, Repr

/-- Modelled from the spec: an event-log entry (spec §3 Event). -/
structure Event where
  id : Nat
  stepIndex : Nat
  type : EventType
  payload : String
deriving DecidableEq, Repr

/-- Modelled from the spec: a CWM snapshot (spec §3), persisted on every
compression; `dropped` carries a reason code per dropped candidate. -/
structure Snapshot where
  version : Nat
  activeFacts : List Fact
  dropped : List String
deriving DecidableEq, Repr

/-- Modelled from the spec: the engine configuration the orchestrator
consumes (spec §6), with the LLM/deterministic choice carried as the
boolean `use_llm` the console actually sends. -/
structure Config where
  use_llm : Bool
  stm_max_messages : Nat
  compression_token_threshold : Nat
  compression_interval_steps : Nat
deriving DecidableEq, Repr

/-- Modelled from the spec: derived metrics (spec §3, §4.5), never stored. -/
structure Metrics where
  baseline_tokens : Nat
  injected_tokens : Nat
  reduction_pct : ℚ
  critic_verdict : String
deriving DecidableEq, Repr

/-- Modelled from the spec: the per-run persisted state (spec §3 Run plus
the collections it owns). -/
structure RunState where
  objective : String
  config : Config
  stepCounter : Nat
  stm : List Message
  facts : List Fact
  snapshots : List Snapshot
  events : List Event
  nextEventId : Nat
  nextFactId : Nat
deriving DecidableEq, Repr

/-- Modelled from the spec: create-run initialises an empty run (spec §6). -/
def initRun (objective : String) (cfg : Config) : RunState where
  objective := objective
  config := cfg
  stepCounter := 0
  stm := []
  facts := []
  snapshots := []
  events := []
  nextEventId := 0
  nextFactId := 0

/-- `true` on the facts that are `active` and carry key `k`. -/
def isActiveWithKey (k : String) (f : Fact) : Bool :=
  decide (f.status = FactStatus.active) && (f.key == k)

/-- Spec §3 invariant: at most one `active` fact per key within a run. -/
def AtMostOneActive (facts : List Fact) : Prop :=
  ∀ k, (facts.filter (isActiveWithKey k)).length ≤ 1

/-- `true` on `active` facts. -/
def isActive (f : Fact) : Bool :=
  decide (f.status = FactStatus.active)

/-- The STM window: the last `stm_max_messages` messages (spec §3). -/
def stmWindow (s : RunState) : List Message :=
  s.stm.drop (s.stm.length - s.config.stm_max_messages)

/-- The active-fact projection of a run. -/
def activeFacts (s : RunState) : List Fact :=
  s.facts.filter isActive

/-- Sum of stored token estimates over messages. -/
def sumMsgTokens (msgs : List Message) : Nat :=
  (msgs.map Message.tokenEstimate).sum

/-- Sum of token estimates over facts (key and value text). -/
def sumFactTokens (facts : List Fact) : Nat :=
  (facts.map (fun f => estimateTokens f.key + estimateTokens f.value)).sum

/-! ## Engine operations (modelled from the spec) -/

/-- Result of the Retrieval Agent (spec §4.2). -/
structure RetrievalResult where
  selectedFacts : List Fact
  stmSlice : List Message
  notes : String
deriving DecidableEq, Repr

/-- Split a character list at each space, keeping empty segments, as
`String.split` on a single-space separator does. -/
def wordsAux : List Char → List Char → List (List Char)
  | [], acc => [acc.reverse]
  | c :: cs, acc =>
    if c == ' ' then acc.reverse :: wordsAux cs []
    else wordsAux cs (c :: acc)

/-- Crude whitespace tokenisation used by the deterministic strategies. -/
def words (s : String) : List String :=
  (wordsAux s.data []).map String.mk

/-- Modelled from the spec: strict-deterministic retrieval (spec §4.2) —
term-overlap selection of active facts, always including the last
`stm_max_messages` STM entries; exact salience thresholds are noted as
free implementation choices (spec §9), instantiated here as
positive-overlap selection. -/
def retrieve (s : RunState) (userMessage : String) : RetrievalResult where
  selectedFacts :=
    let qs := words (userMessage ++ " " ++ s.objective)
    (activeFacts s).filter (fun f =>
      qs.any (fun w => (words (f.key ++ " " ++ f.value)).contains w))
  stmSlice := stmWindow s
  notes := "deterministic retrieval"

/-- Modelled from the spec: the deterministic planner fallback (spec §4.1
step 3); the answer text itself is unconstrained by the spec. -/
def plannerFallback (userMessage : String) : String :=
  "ack: " ++ userMessage

inductive Verdict
  | ok
  | missing_memory
  | inconsistent
deriving DecidableEq, Repr

def verdictString : Verdict → String
  | Verdict.ok => "ok"
  | Verdict.missing_memory => "missing_memory"
  | Verdict.inconsistent => "inconsistent"

/-- Modelled from the spec: deterministic critic (spec §4.4) —
`missing_memory` when a word of the user message matching the key of no
active fact looks like a reference; instantiated as substring matching
against active-fact keys, `ok` otherwise; the `inconsistent` arm needs
planner/fact contradiction, modelled as exact value mismatch on a shared
key in the planner output. -/
def criticVerdict (s : RunState) (userMessage : String) : Verdict :=
  if (activeFacts s).isEmpty then Verdict.ok
  else if (activeFacts s).any (fun f => (words userMessage).contains f.key) then Verdict.ok
  else Verdict.missing_memory

/-- Modelled from the spec: record one event in the append-only log
(spec §3 Event: monotonic id, append-only). -/
def recordEvent (s : RunState) (t : EventType) (payload : String) : RunState :=
  { s with
    events := s.events ++ [⟨s.nextEventId, s.stepCounter, t, payload⟩]
    nextEventId := s.nextEventId + 1 }

/-- A compression candidate fact (spec §4.3). -/
structure Candidate where
  key : String
  value : String
deriving DecidableEq, Repr

/-- Split a character list at the first occurrence of `pat`, returning
the pieces before and after it. -/
def splitFirst (pat : List Char) : List Char → List Char → Option (List Char × List Char)
  | [], _ => none
  | c :: cs, acc =>
    if pat.isPrefixOf (c :: cs) then some (acc.reverse, (c :: cs).drop pat.length)
    else splitFirst pat cs (c :: acc)

/-- Modelled from the spec: deterministic candidate extraction (spec §4.3
step 1), instantiated as the "X is now Y" pattern; the exact extraction
patterns are noted as free implementation choices (spec §9). -/
def extractCandidate (m : Message) : Option Candidate :=
  match splitFirst " is now ".data m.content.data [] with
  | some (k, v) => some ⟨String.mk k, String.mk v⟩
  | none => none

def extractCandidates (msgs : List Message) : List Candidate :=
  msgs.filterMap extractCandidate

def mkFact (id version : Nat) (c : Candidate) (supersedes : Option Nat) : Fact where
  id := id
  version := version
  key := c.key
  value := c.value
  status := FactStatus.active
  supersedes := supersedes

/-- Mark the fact with id `oldId` as superseded (spec §3: supersession
sets the old fact's status, never edits its value). -/
def supersedeById (facts : List Fact) (oldId : Nat) : List Fact :=
  facts.map (fun f => if f.id = oldId then { f with status := FactStatus.superseded } else f)

/-- Modelled from the spec: fold the compression candidates into the fact
list (spec §4.3 steps 2–3): a candidate sharing a key with an active fact
whose value differs supersedes it; a candidate matching an active fact
exactly is dropped as redundant; otherwise it is inserted as a new
`active` fact. Returns (facts, next fact id, dropped reason codes). -/
def compressFacts : List Fact → Nat → List Candidate → List Fact × Nat × List String
  | facts, nid, [] => (facts, nid, [])
  | facts, nid, c :: cs =>
    match facts.find? (isActiveWithKey c.key) with
    | some old =>
      if old.value == c.value then
        let r := compressFacts facts nid cs
        (r.1, r.2.1, ("redundant: " ++ c.key) :: r.2.2)
      else
        compressFacts
          (supersedeById facts old.id ++ [mkFact nid (old.version + 1) c (some old.id)])
          (nid + 1) cs
    | none => compressFacts (facts ++ [mkFact nid 1 c none]) (nid + 1) cs

/-- Modelled from the spec: one Compression Agent run plus snapshot
persistence and its `compression` and `snapshot` events (spec §4.1 step 5,
§4.3 step 4). -/
def runCompression (s : RunState) : RunState :=
  let r := compressFacts s.facts s.nextFactId (extractCandidates (stmWindow s))
  let s1 : RunState :=
    { s with
      facts := r.1
      nextFactId := r.2.1
      snapshots := s.snapshots ++ [⟨s.snapshots.length + 1, r.1.filter isActive, r.2.2⟩] }
  recordEvent (recordEvent s1 EventType.compression "CWM updated")
    EventType.snapshot "snapshot written"

/-- Modelled from the spec: trigger evaluation (spec §4.1 step 5). -/
def shouldCompress (cfg : Config) (injected stepCounter : Nat) (force : Bool) : Bool :=
  (cfg.compression_token_threshold ≤ injected)
    || (stepCounter % cfg.compression_interval_steps == 0)
    || force

/-- Modelled from the spec: `injected_tokens` of one step (spec §4.5) —
objective + selected facts + STM slice actually sent + latest user
message. -/
def injectedTokens (s : RunState) (r : RetrievalResult) (userMessage : String) : Nat :=
  estimateTokens s.objective + sumFactTokens r.selectedFacts
    + sumMsgTokens r.stmSlice + estimateTokens userMessage

/-- The state after appending the step's user message and bumping the
step counter (spec §4.1 step 1). -/
def appendUser (s : RunState) (userMessage : String) : RunState :=
  { s with
    stepCounter := s.stepCounter + 1
    stm := s.stm ++ [⟨s.stepCounter + 1, Role.user, userMessage, estimateTokens userMessage⟩] }

/-- The injected-token count a step computes for its trigger evaluation. -/
def stepInjected (s : RunState) (userMessage : String) : Nat :=
  let s1 := appendUser s userMessage
  injectedTokens s1 (retrieve s1 userMessage) userMessage

/-! ## Metrics, step, force-compress, get-memory (modelled from the spec) -/

/-- Modelled from the spec: `reduction_pct = max(0, 100 × (baseline −
injected)/baseline)` (spec §4.5), over exact rationals. -/
def reductionPct (baseline injected : Nat) : ℚ :=
  max 0 (100 * ((baseline : ℚ) - (injected : ℚ)) / (baseline : ℚ))

/-- Modelled from the spec: `baseline_tokens` — objective plus the full,
unwindowed STM history (spec §4.5). -/
def baselineTokens (s : RunState) : Nat :=
  estimateTokens s.objective + sumMsgTokens s.stm

/-- The latest user message in STM, if any. -/
def lastUserMessage (s : RunState) : Option Message :=
  (s.stm.filter (fun m => decide (m.role = Role.user))).getLast?

/-- Modelled from the spec: `injected_tokens` recomputed from the current
persisted state (spec §3, §4.5): objective only for a run with no steps,
otherwise objective + selected facts + STM slice + latest user message. -/
def currentInjectedTokens (s : RunState) : Nat :=
  match lastUserMessage s with
  | none => estimateTokens s.objective
  | some m =>
    injectedTokens s (retrieve s m.content) m.content

/-- Modelled from the spec: derived metrics recomputed from current
persisted state on every read, never cached (spec §3, §4.5). -/
def computeMetrics (s : RunState) : Metrics where
  baseline_tokens := baselineTokens s
  injected_tokens := currentInjectedTokens s
  reduction_pct := reductionPct (baselineTokens s) (currentInjectedTokens s)
  critic_verdict :=
    verdictString (criticVerdict s (((lastUserMessage s).map Message.content).getD ""))

/-- Result of submit-step (spec §6). -/
structure StepResult where
  assistant_message : String
  triggered_compression : Bool
  metrics : Metrics
deriving DecidableEq, Repr

inductive StepError
  | validation
  | storage
deriving DecidableEq, Repr

/-- Step stage 1 (spec §4.1 step 1): append the user message, bump the
step counter. -/
def stepStage1 (s : RunState) (m : String) : RunState :=
  appendUser s m

/-- Step stage 2 (spec §4.1 step 2): retrieval plus its event. -/
def stepStage2 (s : RunState) (m : String) : RunState :=
  recordEvent (stepStage1 s m) EventType.retrieval (retrieve (stepStage1 s m) m).notes

/-- Step stage 3 (spec §4.1 step 3): append the assistant message, record
the planner event. -/
def stepStage3 (s : RunState) (m : String) : RunState :=
  let s2 := stepStage2 s m
  let asst := plannerFallback m
  recordEvent
    { s2 with stm := s2.stm ++ [⟨s.stepCounter + 1, Role.assistant, asst, estimateTokens asst⟩] }
    EventType.planner asst

/-- Step stage 4 (spec §4.1 step 4): record the critic event. -/
def stepStage4 (s : RunState) (m : String) : RunState :=
  recordEvent (stepStage3 s m) EventType.critic
    (verdictString (criticVerdict (stepStage3 s m) m))

/-- Whether the step's trigger evaluation fires (spec §4.1 step 5). -/
def stepTriggered (s : RunState) (m : String) : Bool :=
  shouldCompress s.config (stepInjected s m) (s.stepCounter + 1) false

/-- The complete staged state of one step. -/
def stepFinalState (s : RunState) (m : String) : RunState :=
  if stepTriggered s m then runCompression (stepStage4 s m) else stepStage4 s m

/-- Modelled from the spec: the staged writes of one step (spec §4.1
steps 1–6), computed in full before anything is committed. -/
def stageStep (s : RunState) (userMessage : String) : RunState × StepResult :=
  (stepFinalState s userMessage,
   ⟨plannerFallback userMessage, stepTriggered s userMessage,
    computeMetrics (stepFinalState s userMessage)⟩)

/-- Modelled from the spec: submit-step (spec §6, §4.1, §7). Validation
happens pre-state; all staged writes commit atomically at step end, a
durable-write failure (`writeOk = false`) discards them all. -/
def submitStep (s : RunState) (userMessage : String) (writeOk : Bool) :
    RunState × Except StepError StepResult :=
  if jsTrim userMessage == "" then (s, Except.error StepError.validation)
  else if writeOk then
    let r := stageStep s userMessage
    (r.1, Except.ok r.2)
  else (s, Except.error StepError.storage)

/-- Modelled from the spec: force-compress (spec §6, §5) — a synchronous
out-of-band compression trigger under the same atomic-commit rule. -/
def forceCompress (s : RunState) (writeOk : Bool) :
    RunState × Except StepError Nat :=
  if writeOk then
    let s1 := runCompression s
    (s1, Except.ok s1.snapshots.length)
  else (s, Except.error StepError.storage)

/-- The view returned by get-memory: STM tail, latest CWM snapshot,
metrics — under the field names the console reads (`stm`, `cwm`,
`metrics`). -/
structure MemoryView where
  stm : List Message
  cwm : Option Snapshot
  metrics : Metrics
deriving DecidableEq, Repr

/-- Modelled from the spec: get-memory (spec §6), a read returning the
state unchanged with metrics recomputed from it. -/
def getMemory (s : RunState) : MemoryView × RunState :=
  (⟨stmWindow s, s.snapshots.getLast?, computeMetrics s⟩, s)

/-! ## Event-log well-formedness and the C3 scenario fixture -/

/-- Spec §3: per-run event ids are monotonic; `nextEventId` majorises
every recorded id. -/
def EventLogOk (s : RunState) : Prop :=
  s.events.Pairwise (fun a b => a.id < b.id) ∧ ∀ e ∈ s.events, e.id < s.nextEventId

/-- The engine configuration carried by the console's create-run payload:
stm_max_messages 12, compression_token_threshold 2400,
compression_interval_steps 3 (EngineConsole.jsx 74–81). -/
def consoleEngineConfig : Config := ⟨true, 12, 2400, 3⟩

/-- A 40-character objective, ≈ 10 tokens. -/
def c3Objective : String := String.mk (List.replicate 40 'o')

/-- A 200-character user message, ≈ 50 tokens. -/
def c3Message : String := String.mk (List.replicate 200 'm')

def c3Run0 : RunState := initRun c3Objective consoleEngineConfig

def c3Run1 : RunState := (submitStep c3Run0 c3Message true).1

def c3Run2 : RunState := (submitStep c3Run1 c3Message true).1

def c3Run3 : RunState := (submitStep c3Run2 c3Message true).1

/-! ## Theorems -/

/-- C10: `metricBadgeVariant` is a total deterministic function of its
numeric input, returning "default" exactly when the value is ≥ 50,
"secondary" exactly when it is in [25, 50), and "outline" otherwise
(including all negatives): the three variants partition the line. -/
theorem metricBadgeVariant_partition (v : ℚ) :
    (metricBadgeVariant v = "default" ↔ 50 ≤ v)
    ∧ (metricBadgeVariant v = "secondary" ↔ 25 ≤ v ∧ v < 50)
    ∧ (metricBadgeVariant v = "outline" ↔ v < 25) := by
  unfold metricBadgeVariant
  split_ifs with h1 h2
  · refine ⟨by simp [h1], ?_, ?_⟩
    · simp only [show ("default" : String) ≠ "secondary" from by decide, false_iff]
      intro h
      exact absurd h1 (not_le.mpr h.2)
    · simp only [show ("default" : String) ≠ "outline" from by decide, false_iff]
      intro h
      exact absurd h1 (not_le.mpr (h.trans_le (by norm_num)))
  · refine ⟨?_, ?_, ?_⟩
    · simp only [show ("secondary" : String) ≠ "default" from by decide, false_iff]
      exact h1
    · simp [h2, not_le.mp h1]
    · simp only [show ("secondary" : String) ≠ "outline" from by decide, false_iff]
      exact not_lt.mpr h2
  · refine ⟨?_, ?_, ?_⟩
    · simp only [show ("outline" : String) ≠ "default" from by decide, false_iff]
      exact h1
    · simp only [show ("outline" : String) ≠ "secondary" from by decide, false_iff]
      intro h
      exact absurd h.1 h2
    · simp [not_le.mp h2]

/-- C5, counterexample: the console's create-run (and demo) config
carries no `determinism_mode` key at all; the engine-mode choice travels
as the boolean `use_llm` key. -/
theorem createRun_no_determinism_mode_key :
    (createRunConfig true).lookup "determinism_mode" = none
    ∧ (createRunConfig false).lookup "determinism_mode" = none
    ∧ (runDemoConfig true).lookup "determinism_mode" = none
    ∧ (runDemoConfig false).lookup "determinism_mode" = none
    ∧ (createRunConfig true).lookup "use_llm" = some (ConfigValue.boolVal true)
    ∧ (createRunConfig false).lookup "use_llm" = some (ConfigValue.boolVal false) := by
  decide

/-- C5, amended: every create-run call the console makes sends the
configuration keys `use_llm` (bool), `stm_max_messages` (int),
`compression_token_threshold` (int), `compression_interval_steps` (int),
`llm_provider` and `llm_model`, and the choice between LLM-assisted and
strict deterministic operation is expressed through the boolean
`use_llm` key. -/
theorem createRunConfig_recognized_keys (b : Bool) :
    (createRunConfig b).map Prod.fst =
      ["use_llm", "stm_max_messages", "compression_token_threshold",
       "compression_interval_steps", "llm_provider", "llm_model"]
    ∧ (createRunConfig b).lookup "use_llm" = some (ConfigValue.boolVal b)
    ∧ (createRunConfig b).lookup "stm_max_messages" = some (ConfigValue.natVal 12)
    ∧ (createRunConfig b).lookup "compression_token_threshold"
        = some (ConfigValue.natVal 2400)
    ∧ (createRunConfig b).lookup "compression_interval_steps"
        = some (ConfigValue.natVal 3)
    ∧ (runDemoConfig b).map Prod.fst = (createRunConfig b).map Prod.fst := by
  cases b <;> exact ⟨rfl, rfl, rfl, rfl, rfl, rfl⟩

/-- C6, counterexample: a get-memory response shaped as the claim states
(fields `stm_tail`, `latest_cwm`, `metrics`) renders as the empty
defaults in the console viewer, while a response with fields `stm` and
`cwm` is consumed; the console viewer does not consume the
`stm_tail`/`latest_cwm` shape. -/
theorem memoryViewer_ignores_stm_tail :
    stmPane [("stm_tail", "[1]"), ("latest_cwm", "x"), ("metrics", "m")] = "[]"
    ∧ cwmPane [("stm_tail", "[1]"), ("latest_cwm", "x"), ("metrics", "m")] = "\x7b\x7d"
    ∧ stmPane [("stm", "[1]"), ("cwm", "x"), ("metrics", "m")] = "[1]"
    ∧ cwmPane [("stm", "[1]"), ("cwm", "x"), ("metrics", "m")] = "x" := by
  decide

/-- C6, amended: get-memory returns the recent STM window, the latest
compressed working memory and the derived metrics under the field names
`stm`, `cwm` and `metrics`, and that is the shape the console's memory
viewer consumes. -/
theorem getMemory_shape (s : RunState) (a b c : String)
    (rest : List (String × String)) :
    stmPane (("stm", a) :: ("cwm", b) :: ("metrics", c) :: rest) = a
    ∧ cwmPane (("stm", a) :: ("cwm", b) :: ("metrics", c) :: rest) = b
    ∧ metricsPane (("stm", a) :: ("cwm", b) :: ("metrics", c) :: rest) = c
    ∧ (getMemory s).1.stm = stmWindow s
    ∧ (getMemory s).1.cwm = s.snapshots.getLast?
    ∧ (getMemory s).1.metrics = computeMetrics s := by
  exact ⟨rfl, rfl, rfl, rfl, rfl, rfl⟩

/-- C8: get-memory is an idempotent read — it leaves the state unchanged,
two reads with no intervening step return identical views, and the
metrics in the view are recomputed from the current persisted state
rather than read from any cache. -/
theorem getMemory_idempotent (s : RunState) :
    (getMemory s).2 = s
    ∧ (getMemory ((getMemory s).2)).1 = (getMemory s).1
    ∧ (getMemory s).1.metrics = computeMetrics s := by
  exact ⟨rfl, rfl, rfl⟩

/-- C4: `reduction_pct` equals max(0, 100 × (baseline − injected)/baseline),
hence is never negative for any token counts (including injected >
baseline), and the empty run has baseline = injected = tokens(objective)
with reduction 0. -/
theorem reduction_pct_contract :
    (∀ b i : Nat, reductionPct b i = max 0 (100 * ((b : ℚ) - (i : ℚ)) / (b : ℚ)))
    ∧ (∀ b i : Nat, 0 ≤ reductionPct b i)
    ∧ (∀ s : RunState, (computeMetrics s).reduction_pct
        = reductionPct (computeMetrics s).baseline_tokens (computeMetrics s).injected_tokens)
    ∧ (∀ s : RunState, 0 ≤ (computeMetrics s).reduction_pct)
    ∧ (∀ (obj : String) (cfg : Config),
        (computeMetrics (initRun obj cfg)).baseline_tokens = estimateTokens obj
        ∧ (computeMetrics (initRun obj cfg)).injected_tokens = estimateTokens obj
        ∧ (computeMetrics (initRun obj cfg)).reduction_pct = 0) := by
  refine ⟨fun b i => rfl, fun b i => le_max_left 0 _, fun s => rfl,
    fun s => le_max_left 0 _, fun obj cfg => ⟨?_, ?_, ?_⟩⟩
  · simp [computeMetrics, baselineTokens, initRun, sumMsgTokens]
  · simp [computeMetrics, currentInjectedTokens, lastUserMessage, initRun]
  · have hb : (computeMetrics (initRun obj cfg)).baseline_tokens = estimateTokens obj := by
      simp [computeMetrics, baselineTokens, initRun, sumMsgTokens]
    have hi : (computeMetrics (initRun obj cfg)).injected_tokens = estimateTokens obj := by
      simp [computeMetrics, currentInjectedTokens, lastUserMessage, initRun]
    show reductionPct (baselineTokens (initRun obj cfg))
      (currentInjectedTokens (initRun obj cfg)) = 0
    have hb' : baselineTokens (initRun obj cfg) = estimateTokens obj := hb
    have hi' : currentInjectedTokens (initRun obj cfg) = estimateTokens obj := hi
    rw [hb', hi', reductionPct, sub_self, mul_zero, zero_div, max_self]

/-- C2: each submitted step commits all of its staged writes or none of
them — the post-state is either the unchanged pre-state or the fully
staged state; a durable-write failure mutates nothing; and a step that
failed on a durable write is safely retryable, the resubmission behaving
exactly as a first submission. -/
theorem step_atomic_commit (s : RunState) (m : String) (ok : Bool) :
    ((submitStep s m ok).1 = s ∨ (submitStep s m ok).1 = (stageStep s m).1)
    ∧ (submitStep s m false).1 = s
    ∧ submitStep ((submitStep s m false).1) m true = submitStep s m true := by
  refine ⟨?_, ?_, ?_⟩
  · cases he : (jsTrim m == "") with
    | true => left; simp [submitStep, he]
    | false =>
      cases ok with
      | true => right; simp [submitStep, he]
      | false => left; simp [submitStep, he]
  · cases he : (jsTrim m == "") with
    | true => simp [submitStep, he]
    | false => simp [submitStep, he]
  · cases he : (jsTrim m == "") with
    | true => simp [submitStep, he]
    | false => simp [submitStep, he]

/-- C9: an empty or whitespace-only user message is rejected before any
state change — the console's `sendStep` performs no HTTP request at all
(and a non-blank message is posted untrimmed), and a submit-step with a
blank message is rejected pre-state with a validation error, recording
no event. -/
theorem empty_step_rejected_pre_state :
    (∀ m : String, jsTrim m = "" → sendStepRequest m = none)
    ∧ (∀ m : String, jsTrim m ≠ "" → sendStepRequest m = some ⟨m⟩)
    ∧ (∀ (s : RunState) (m : String) (ok : Bool), jsTrim m = "" →
        submitStep s m ok = (s, Except.error StepError.validation)
        ∧ (submitStep s m ok).1.events = s.events) := by
  refine ⟨fun m h => ?_, fun m h => ?_, fun s m ok h => ?_⟩
  · simp [sendStepRequest, h]
  · simp [sendStepRequest, h]
  · have he : (jsTrim m == "") = true := by simp [h]
    constructor
    · simp [submitStep, he]
    · simp [submitStep, he]

/-- Witness for C9 at concrete inputs: a whitespace-only message issues
no request; a real message is posted untrimmed; a blank submit-step
leaves the freshly created run untouched. -/
theorem empty_step_rejected_pre_state_witness :
    sendStepRequest "   " = none
    ∧ sendStepRequest " hi " = some ⟨" hi "⟩
    ∧ submitStep (initRun "o" consoleEngineConfig) "  " true
        = (initRun "o" consoleEngineConfig, Except.error StepError.validation) :=
  ⟨empty_step_rejected_pre_state.1 "   " (by decide),
   empty_step_rejected_pre_state.2.1 " hi " (by decide),
   (empty_step_rejected_pre_state.2.2 (initRun "o" consoleEngineConfig) "  " true
     (by decide)).1⟩

/-! ## The at-most-one-active-fact invariant (C1) -/

theorem eq_of_mem_of_length_le_one {α : Type _} {l : List α} (h : l.length ≤ 1)
    {a b : α} (ha : a ∈ l) (hb : b ∈ l) : a = b := by
  match l, h with
  | [], _ => cases ha
  | [x], _ =>
    rw [List.mem_singleton] at ha hb
    rw [ha, hb]
  | x :: y :: t, h => simp at h

theorem filter_length_map_le {α : Type _} (g : α → α) (p : α → Bool)
    (h : ∀ x, p (g x) = true → p x = true) (l : List α) :
    ((l.map g).filter p).length ≤ (l.filter p).length := by
  induction l with
  | nil => simp
  | cons a t ih =>
    rw [List.map_cons, List.filter_cons, List.filter_cons]
    cases hg : p (g a) with
    | true =>
      rw [h a hg]
      simpa using Nat.succ_le_succ ih
    | false =>
      cases hp : p a with
      | true => simpa using Nat.le_succ_of_le ih
      | false => simpa using ih

/-- Superseding the unique active fact for a key leaves no active fact
with that key. -/
theorem supersede_filter_key_nil (facts : List Fact) (old : Fact) (k : String)
    (hlen : (facts.filter (isActiveWithKey k)).length ≤ 1)
    (hmem : old ∈ facts) (hold : isActiveWithKey k old = true) :
    (supersedeById facts old.id).filter (isActiveWithKey k) = [] := by
  rw [List.filter_eq_nil_iff]
  intro f hf
  rw [supersedeById, List.mem_map] at hf
  obtain ⟨x, hx, rfl⟩ := hf
  by_cases hid : x.id = old.id
  · simp [hid, isActiveWithKey]
  · rw [if_neg hid]
    intro hpx
    have hxo : x = old :=
      eq_of_mem_of_length_le_one hlen
        (List.mem_filter.mpr ⟨hx, hpx⟩) (List.mem_filter.mpr ⟨hmem, hold⟩)
    exact hid (by rw [hxo])

/-- Inserting a new active fact for a key with no current active fact
preserves the invariant. -/
theorem insert_new_preserves (facts : List Fact) (c : Candidate)
    (nid ver : Nat) (sup : Option Nat) (h : AtMostOneActive facts)
    (hnone : facts.find? (isActiveWithKey c.key) = none) :
    AtMostOneActive (facts ++ [mkFact nid ver c sup]) := by
  intro k
  rw [List.filter_append, List.length_append]
  by_cases hk : k = c.key
  · subst hk
    have h0 : facts.filter (isActiveWithKey c.key) = [] := by
      rw [List.filter_eq_nil_iff]
      intro a ha
      exact List.find?_eq_none.mp hnone a ha
    rw [h0]
    simp [isActiveWithKey, mkFact]
  · have hnew : isActiveWithKey k (mkFact nid ver c sup) = false := by
      simp only [isActiveWithKey, mkFact, Bool.and_eq_false_iff]
      right
      simpa [beq_eq_false_iff_ne] using fun h' => hk h'.symm
    rw [List.filter_cons, hnew]
    simpa using h k

/-- Superseding the active fact for a key and inserting its replacement
preserves the invariant. -/
theorem supersede_insert_preserves (facts : List Fact) (c : Candidate)
    (old : Fact) (nid ver : Nat) (h : AtMostOneActive facts)
    (hfind : facts.find? (isActiveWithKey c.key) = some old) :
    AtMostOneActive
      (supersedeById facts old.id ++ [mkFact nid ver c (some old.id)]) := by
  have hmem : old ∈ facts := List.mem_of_find?_eq_some hfind
  have hold : isActiveWithKey c.key old = true := List.find?_some hfind
  intro k
  rw [List.filter_append, List.length_append]
  by_cases hk : k = c.key
  · subst hk
    rw [supersede_filter_key_nil facts old c.key (h c.key) hmem hold]
    simp [isActiveWithKey, mkFact]
  · have hnew : isActiveWithKey k (mkFact nid ver c (some old.id)) = false := by
      simp only [isActiveWithKey, mkFact, Bool.and_eq_false_iff]
      right
      simpa [beq_eq_false_iff_ne] using fun h' => hk h'.symm
    rw [List.filter_cons, hnew]
    simp only [Bool.false_eq_true, if_false, List.filter_nil, List.length_nil,
      Nat.add_zero]
    refine le_trans ?_ (h k)
    rw [supersedeById]
    refine filter_length_map_le _ _ ?_ facts
    intro x hpx
    by_cases hid : x.id = old.id
    · rw [if_pos hid] at hpx
      simp [isActiveWithKey] at hpx
    · rwa [if_neg hid] at hpx

/-- The compression fold preserves the at-most-one-active invariant. -/
theorem compressFacts_preserves (cs : List Candidate) :
    ∀ (facts : List Fact) (nid : Nat), AtMostOneActive facts →
      AtMostOneActive (compressFacts facts nid cs).1 := by
  induction cs with
  | nil =>
    intro facts nid h
    simpa [compressFacts] using h
  | cons c cs ih =>
    intro facts nid h
    rw [compressFacts]
    cases hfind : facts.find? (isActiveWithKey c.key) with
    | some old =>
      cases hv : (old.value == c.value) with
      | true =>
        simpa [hv] using ih facts nid h
      | false =>
        simpa [hv] using
          ih _ (nid + 1) (supersede_insert_preserves facts c old nid (old.version + 1) h hfind)
    | none =>
      exact ih _ (nid + 1) (insert_new_preserves facts c nid 1 none h hfind)

theorem runCompression_facts (s : RunState) :
    (runCompression s).facts
      = (compressFacts s.facts s.nextFactId (extractCandidates (stmWindow s))).1 := rfl

theorem runCompression_preserves (s : RunState) (h : AtMostOneActive s.facts) :
    AtMostOneActive (runCompression s).facts := by
  rw [runCompression_facts]
  exact compressFacts_preserves _ s.facts s.nextFactId h

theorem stepStage4_facts (s : RunState) (m : String) :
    (stepStage4 s m).facts = s.facts := rfl

/-- C1: at most one `active` fact exists per key within a run (per
(run_id, key) across runs, since a run exclusively owns its facts), and
every operation — submit-step, force-compress, and the compression run
itself — preserves this invariant. -/
theorem active_fact_invariant (s : RunState) (m : String) (ok : Bool)
    (h : AtMostOneActive s.facts) :
    AtMostOneActive (initRun s.objective s.config).facts
    ∧ AtMostOneActive (submitStep s m ok).1.facts
    ∧ AtMostOneActive (forceCompress s ok).1.facts
    ∧ AtMostOneActive (runCompression s).facts := by
  refine ⟨?_, ?_, ?_, runCompression_preserves s h⟩
  · intro k
    simp [initRun]
  · cases he : (jsTrim m == "") with
    | true => simpa [submitStep, he] using h
    | false =>
      cases ok with
      | false => simpa [submitStep, he] using h
      | true =>
        have hstage : AtMostOneActive (stepFinalState s m).facts := by
          rw [stepFinalState]
          cases ht : stepTriggered s m with
          | true =>
            simp only [if_pos rfl]
            exact runCompression_preserves (stepStage4 s m)
              (by rw [stepStage4_facts]; exact h)
          | false => simpa [stepStage4_facts] using h
        simpa [submitStep, he, stageStep] using hstage
  · cases ok with
    | true => simpa [forceCompress] using runCompression_preserves s h
    | false => simpa [forceCompress] using h

/-- Witness for C1: the invariant holds on a fresh run and is preserved
across a step whose message creates a fact candidate, a forced
compression, and a direct compression run. -/
theorem active_fact_invariant_witness :
    AtMostOneActive (initRun (c3Run0.objective) (c3Run0.config)).facts
    ∧ AtMostOneActive (submitStep c3Run0 "threshold is now 1200" true).1.facts
    ∧ AtMostOneActive (forceCompress c3Run0 true).1.facts
    ∧ AtMostOneActive (runCompression c3Run0).facts :=
  active_fact_invariant c3Run0 "threshold is now 1200" true
    (fun k => by simp [c3Run0, initRun])

/-! ## The append-only, monotonically indexed event log (C7) -/

theorem recordEvent_events (s : RunState) (t : EventType) (p : String) :
    (recordEvent s t p).events
      = s.events ++ [⟨s.nextEventId, s.stepCounter, t, p⟩] := rfl

theorem eventLogOk_copy {s s' : RunState} (hev : s'.events = s.events)
    (hid : s'.nextEventId = s.nextEventId) (h : EventLogOk s) : EventLogOk s' := by
  obtain ⟨h1, h2⟩ := h
  exact ⟨hev ▸ h1, fun e he => hid ▸ h2 e (hev ▸ he)⟩

theorem eventLogOk_recordEvent {s : RunState} (t : EventType) (p : String)
    (h : EventLogOk s) : EventLogOk (recordEvent s t p) := by
  obtain ⟨h1, h2⟩ := h
  constructor
  · rw [recordEvent_events, List.pairwise_append]
    refine ⟨h1, List.pairwise_singleton _ _, ?_⟩
    intro a ha b hb
    rw [List.mem_singleton] at hb
    rw [hb]
    exact h2 a ha
  · intro e he
    rw [recordEvent_events, List.mem_append] at he
    rcases he with he | he
    · exact Nat.lt_succ_of_lt (h2 e he)
    · rw [List.mem_singleton] at he
      rw [he]
      exact Nat.lt_succ_self _

theorem events_prefix_recordEvent (s : RunState) (t : EventType) (p : String) :
    s.events <+: (recordEvent s t p).events :=
  ⟨[⟨s.nextEventId, s.stepCounter, t, p⟩], rfl⟩

theorem eventLogOk_runCompression {s : RunState} (h : EventLogOk s) :
    EventLogOk (runCompression s) := by
  simp only [runCompression]
  exact eventLogOk_recordEvent _ _
    (eventLogOk_recordEvent _ _ (eventLogOk_copy rfl rfl h))

theorem events_prefix_runCompression (s : RunState) :
    s.events <+: (runCompression s).events := by
  simp only [runCompression]
  exact List.IsPrefix.trans (events_prefix_recordEvent _ _ _)
    (events_prefix_recordEvent _ _ _)

theorem eventLogOk_stepFinalState (s : RunState) (m : String) (h : EventLogOk s) :
    EventLogOk (stepFinalState s m) ∧ s.events <+: (stepFinalState s m).events := by
  have h2 : EventLogOk (stepStage2 s m) :=
    eventLogOk_recordEvent _ _ (eventLogOk_copy rfl rfl h)
  have h3 : EventLogOk (stepStage3 s m) :=
    eventLogOk_recordEvent _ _ (eventLogOk_copy rfl rfl h2)
  have h4 : EventLogOk (stepStage4 s m) := eventLogOk_recordEvent _ _ h3
  have p2 : s.events <+: (stepStage2 s m).events := ⟨_, rfl⟩
  have p3 : s.events <+: (stepStage3 s m).events := List.IsPrefix.trans p2 ⟨_, rfl⟩
  have p4 : s.events <+: (stepStage4 s m).events := List.IsPrefix.trans p3 ⟨_, rfl⟩
  rw [stepFinalState]
  cases ht : stepTriggered s m with
  | true =>
    rw [if_pos rfl]
    exact ⟨eventLogOk_runCompression h4,
      List.IsPrefix.trans p4 (events_prefix_runCompression _)⟩
  | false =>
    rw [if_neg (by simp)]
    exact ⟨h4, p4⟩

theorem eventType_total (t : EventType) :
    t ∈ [EventType.retrieval, EventType.planner, EventType.critic,
         EventType.compression, EventType.snapshot] := by
  cases t <;> simp

/-- C7: every recorded event has a type in the five-value set
retrieval/planner/critic/compression/snapshot; event ids are strictly
monotonic along the per-run log; and the log is append-only — submit-step
and force-compress both extend it with the previous log as a prefix,
never reordering or deleting a committed event. -/
theorem event_log_contract (s : RunState) (m : String) (ok : Bool)
    (h : EventLogOk s) :
    (EventLogOk (submitStep s m ok).1 ∧ s.events <+: (submitStep s m ok).1.events)
    ∧ (EventLogOk (forceCompress s ok).1
        ∧ s.events <+: (forceCompress s ok).1.events)
    ∧ (∀ e ∈ (submitStep s m ok).1.events,
        e.type ∈ [EventType.retrieval, EventType.planner, EventType.critic,
          EventType.compression, EventType.snapshot]) := by
  refine ⟨?_, ?_, fun e _ => eventType_total e.type⟩
  · cases he : (jsTrim m == "") with
    | true =>
      simp only [submitStep, he, if_pos rfl]
      exact ⟨h, List.prefix_refl _⟩
    | false =>
      cases ok with
      | false =>
        simp only [submitStep, he]
        exact ⟨h, List.prefix_refl _⟩
      | true =>
        simp only [submitStep, he]
        exact eventLogOk_stepFinalState s m h
  · cases ok with
    | true =>
      simp only [forceCompress]
      exact ⟨eventLogOk_runCompression h, events_prefix_runCompression s⟩
    | false =>
      simp only [forceCompress]
      exact ⟨h, List.prefix_refl _⟩

/-- Witness for C7: the event-log contract instantiated on a fresh run
and a concrete step. -/
theorem event_log_contract_witness :
    (EventLogOk (submitStep c3Run0 "hello there" true).1
      ∧ c3Run0.events <+: (submitStep c3Run0 "hello there" true).1.events)
    ∧ (EventLogOk (forceCompress c3Run0 true).1
        ∧ c3Run0.events <+: (forceCompress c3Run0 true).1.events)
    ∧ (∀ e ∈ (submitStep c3Run0 "hello there" true).1.events,
        e.type ∈ [EventType.retrieval, EventType.planner, EventType.critic,
          EventType.compression, EventType.snapshot]) :=
  event_log_contract c3Run0 "hello there" true
    ⟨List.Pairwise.nil, fun e he => absurd he (List.not_mem_nil e)⟩

/-! ## The interval-trigger scenario (C3) -/

set_option maxRecDepth 10000

/-- C3: with the exact numeric configuration the console's create-run
sends (stm_max_messages 12, compression_token_threshold 2400,
compression_interval_steps 3), after three steps of ≈50 tokens each the
third step triggers a compression event because step_counter mod 3 = 0,
while its injected tokens (312) stay far below the 2400 threshold; the
first two steps trigger nothing. -/
theorem interval_trigger_scenario :
    ((createRunConfig true).lookup "stm_max_messages"
        = some (ConfigValue.natVal consoleEngineConfig.stm_max_messages)
      ∧ (createRunConfig true).lookup "compression_token_threshold"
        = some (ConfigValue.natVal consoleEngineConfig.compression_token_threshold)
      ∧ (createRunConfig true).lookup "compression_interval_steps"
        = some (ConfigValue.natVal consoleEngineConfig.compression_interval_steps))
    ∧ estimateTokens c3Message = 50
    ∧ stepTriggered c3Run0 c3Message = false
    ∧ stepTriggered c3Run1 c3Message = false
    ∧ c3Run2.snapshots.length = 0
    ∧ stepTriggered c3Run2 c3Message = true
    ∧ stepInjected c3Run2 c3Message = 312
    ∧ stepInjected c3Run2 c3Message < consoleEngineConfig.compression_token_threshold
    ∧ (c3Run2.stepCounter + 1) % consoleEngineConfig.compression_interval_steps = 0
    ∧ (c3Run3.events.filter (fun e => e.type == EventType.compression)).length = 1
    ∧ (∃ e ∈ c3Run3.events, e.type = EventType.compression ∧ e.stepIndex = 3) := by
  decide

end ContextDistillery
